import Mathlib

/-!
Verification of the novu notification job execution engine core:
a shallow embedding in Lean 4 of the worker failure handler
(`WorkflowQueueService`), the distributed lock service
(`DistributedLockService`), the notification job builder
(`CreateNotificationJobs`), and the cache layer (`CacheService`,
`InvalidateCacheService`), together with theorems settling the spec's
claims about them.

Conventions: JavaScript numbers on the lock-counter path are modelled by
`JsVal` (undefined / NaN / integer); promises and `async` control flow are
modelled by explicit state passing plus `Except` for thrown errors; the
redis backend is modelled as function maps from keys to values; streams
are modelled as event lists consumed in order.
-/

namespace Novu

/-! ## Worker failure handler (`WorkflowQueueService`, workflow-queue service)

Embeds `jobHasFailed` and `handleLastFailedWebhookFilter`. The side effects
performed through the injected usecases (`SetJobAsFailed`,
`CreateExecutionDetails`, `QueueNextJob`) are recorded as an emitted action
list, in execution order. The error type is kept abstract (`ε`);
`RunJob.shouldBackoff` and the JSON extraction
`JSON.stringify({ message: JSON.parse(error.message).message })` are not in
the sources under verification, so they are passed in as the classification
function `shouldBackoff` and the extraction function `rawOf`. -/

/-- One observable side effect of the failure handler. The id fields of the
commands (`environmentId`, `_jobId`, `organizationId`, `userId`), copied
verbatim from the bull job's data, are elided. -/
inductive JobAction (ε : Type) where
  /-- Call of `this.setJobAsFailed.execute` carrying the raw error. -/
  | setJobAsFailed (error : ε)
  /-- Call of `this.createExecutionDetails.execute` with the given detail
  enum value and `raw` payload. -/
  | createExecutionDetail (detail : String) (raw : String)
  /-- Call of `this.queueNextJob.execute` for the job's children. -/
  | queueNextJob
  deriving DecidableEq, Repr

/-- The step data carried on the job (`job.data.step`). -/
structure JobStep where
  shouldStopOnFail : Bool
  deriving DecidableEq, Repr

/-- The `data` payload of a bull job (`JobEntity`); only the field read by
the failure handler is kept. -/
structure JobData where
  step : Option JobStep
  deriving DecidableEq, Repr

/-- A bull queue job as seen by the `failed` event handler. -/
structure QueueJob where
  attemptsMade : Nat
  data : JobData
  deriving DecidableEq, Repr

/-- The attempt ceiling `readonly DEFAULT_ATTEMPTS = 3`. -/
def DEFAULT_ATTEMPTS : Nat := 3

/-- The detail enum value `DetailEnum.WEBHOOK_FILTER_FAILED_LAST_RETRY`
used for the terminal execution-detail record. -/
def WEBHOOK_FILTER_FAILED_LAST_RETRY : String :=
  "Failed to get response from the webhook filter at the last retry"

/-- Evaluation of the optional chain `job?.data?.step?.shouldStopOnFail`
as a JS condition: undefined (absent step) is falsy. -/
def stopOnFailOf (job : QueueJob) : Bool :=
  (job.data.step.map (·.shouldStopOnFail)).getD false

/-- Embedding of `WorkflowQueueService.handleLastFailedWebhookFilter`:
marks the job failed, records the terminal execution detail whose `raw`
field is derived from the error by `rawOf`, and, unless
`job?.data?.step?.shouldStopOnFail` is truthy, queues the next job. -/
def handleLastFailedWebhookFilter {ε : Type} (rawOf : ε → String)
    (job : QueueJob) (error : ε) : List (JobAction ε) :=
  [.setJobAsFailed error,
   .createExecutionDetail WEBHOOK_FILTER_FAILED_LAST_RETRY (rawOf error)] ++
  (if !stopOnFailOf job then [.queueNextJob] else [])

/-- Embedding of `WorkflowQueueService.jobHasFailed`: classifies the error
with `this.runJob.shouldBackoff`, immediately marks the job failed when not
backoff-eligible, and runs the last-retry path when the attempts made reach
`DEFAULT_ATTEMPTS` on a backoff-eligible error. -/
def jobHasFailed {ε : Type} (shouldBackoff : ε → Bool) (rawOf : ε → String)
    (job : QueueJob) (error : ε) : List (JobAction ε) :=
  let hasToBackoff := shouldBackoff error
  (if !hasToBackoff then [.setJobAsFailed error] else []) ++
  (let lastWebhookFilterRetry :=
    job.attemptsMade == DEFAULT_ATTEMPTS && hasToBackoff
   if lastWebhookFilterRetry then
     handleLastFailedWebhookFilter rawOf job error
   else [])

/-- Counts the next-job enqueue calls in an emitted action list. -/
def countQueueNext {ε : Type} (actions : List (JobAction ε)) : Nat :=
  (actions.filter (fun a => a matches .queueNextJob)).length

/-- Predicate for the failed-status update action. -/
def isSetFailed {ε : Type} : JobAction ε → Bool
  | .setJobAsFailed _ => true
  | _ => false

/-! ## Distributed lock service (`DistributedLockService`)

The JS object `this.lockCounter = {}` maps resource names to JS number
values; reading an absent property yields `undefined`, and `undefined--`
yields `NaN`, so counter values are modelled by `JsVal`. The redlock
backend, the protected handler and the unlock call are external
collaborators; their outcomes are passed in as `Except` values. Thrown
errors propagate through `Except.error`; `try`/`catch`/`finally` control
flow is embedded by the combinators `tryFinally` and `catchLog`. -/

/-- A JavaScript number-or-undefined value as stored in `lockCounter`. -/
inductive JsVal where
  | undef
  | nan
  | int (v : Int)
  deriving DecidableEq, Repr

/-- Truthiness of a `JsVal`: `undefined`, `NaN` and `0` are falsy. -/
def JsVal.truthy : JsVal → Bool
  | JsVal.undef => false
  | .nan => false
  | .int v => v != 0

/-- JS postfix increment result: `undefined++`/`NaN++` give `NaN`. -/
def JsVal.jsIncrement : JsVal → JsVal
  | JsVal.undef => JsVal.nan
  | .nan => .nan
  | .int v => .int (v + 1)

/-- JS postfix decrement result: `undefined--`/`NaN--` give `NaN`. -/
def JsVal.jsDecrement : JsVal → JsVal
  | JsVal.undef => JsVal.nan
  | .nan => .nan
  | .int v => .int (v - 1)

/-- Negativity of a stored counter value (`NaN` and `undefined` compare
false with `< 0` in JS, so only genuine negative integers count). -/
def JsVal.isNegative : JsVal → Prop
  | .int v => v < 0
  | _ => False

instance : DecidablePred JsVal.isNegative := fun v => by
  cases v <;> simp [JsVal.isNegative] <;> infer_instance

/-- The lock counter object `this.lockCounter`, keyed by resource name. -/
def LockCounter : Type := String → JsVal

/-- The freshly constructed service has `lockCounter = {}`. -/
def initialLockCounter : LockCounter := fun _ => JsVal.undef

/-- Embedding of `DistributedLockService.increaseLockCounter`: a truthy
stored value is incremented in place, otherwise the property is set
to `1`. -/
def increaseLockCounter (m : LockCounter) (resource : String) :
    LockCounter :=
  if (m resource).truthy then
    fun x => if x = resource then (m resource).jsIncrement else m x
  else
    fun x => if x = resource then .int 1 else m x

/-- Embedding of `DistributedLockService.decreaseLockCounter`: the
property is decremented unconditionally. -/
def decreaseLockCounter (m : LockCounter) (resource : String) :
    LockCounter :=
  fun x => if x = resource then (m resource).jsDecrement else m x

/-- Embedding of `DistributedLockService.areAllLocksReleased`:
`Object.values(this.lockCounter).every((value) => !value)`, given the
object's key set as an explicit list. -/
def areAllLocksReleased (keys : List String) (m : LockCounter) : Bool :=
  keys.all (fun r => !(m r).truthy)

/-- Mutable service state threaded through `applyLock`, with
instrumentation counters for the observable calls: invocations of the
release closure, calls of `lock.unlock()` on the backend, and the
messages logged by `Logger.error` in the release `catch` block. -/
structure LockSvcState where
  lockCounter : LockCounter
  releaseCalls : Nat
  unlockCalls : Nat
  loggedErrors : List String

/-- JS `try { body } finally { fin }`: the finalizer always runs; an error
thrown by the finalizer replaces the body's outcome, otherwise the body's
outcome (value or error) stands. -/
def tryFinally {α : Type}
    (body : LockSvcState → LockSvcState × Except String α)
    (fin : LockSvcState → LockSvcState × Except String Unit)
    (s : LockSvcState) : LockSvcState × Except String α :=
  let (s1, r) := body s
  let (s2, f) := fin s1
  (s2, match f with
       | .ok _ => r
       | .error e => .error e)

/-- JS `try { body } catch (error) { Logger.error(...) }`: a thrown error
is appended to the log and swallowed. -/
def catchLog {α : Type}
    (body : LockSvcState → LockSvcState × Except String α)
    (s : LockSvcState) : LockSvcState × Except String Unit :=
  let (s1, r) := body s
  match r with
  | .ok _ => (s1, .ok ())
  | .error e => ({ s1 with loggedErrors := s1.loggedErrors ++ [e] }, .ok ())

/-- The `await lock.unlock()` backend call: increments the call counter
and produces the externally determined outcome. -/
def unlockCall (unlockOutcome : Except String Unit) (s : LockSvcState) :
    LockSvcState × Except String Unit :=
  ({ s with unlockCalls := s.unlockCalls + 1 }, unlockOutcome)

/-- Embedding of the closure returned by
`DistributedLockService.createLockRelease`: counts the invocation, then
`try { await lock.unlock() } catch (error) { Logger.error(...) } finally
{ this.decreaseLockCounter(resource) }`. -/
def lockRelease (resource : String) (unlockOutcome : Except String Unit)
    (s : LockSvcState) : LockSvcState × Except String Unit :=
  let s := { s with releaseCalls := s.releaseCalls + 1 }
  tryFinally (catchLog (unlockCall unlockOutcome))
    (fun s =>
      ({ s with lockCounter := decreaseLockCounter s.lockCounter resource },
       .ok ()))
    s

/-- Embedding of `DistributedLockService.applyLock`: when the lock manager
is not enabled the handler runs unprotected; otherwise `this.lock` either
rethrows the acquisition error or, via `createLockRelease`, increments the
resource's counter and yields the release closure, after which
`try { return await handler() } finally { await releaseLock() }` runs. The
handler is an external collaborator represented by its outcome. -/
def applyLock {α : Type} (enabled : Bool) (resource : String)
    (acquireOutcome : Except String Unit) (handlerOutcome : Except String α)
    (unlockOutcome : Except String Unit) (s : LockSvcState) :
    LockSvcState × Except String α :=
  if !enabled then
    (s, handlerOutcome)
  else
    match acquireOutcome with
    | .error e => (s, .error e)
    | .ok _ =>
      let s :=
        { s with lockCounter := increaseLockCounter s.lockCounter resource }
      tryFinally (fun s => (s, handlerOutcome))
        (lockRelease resource unlockOutcome) s

/-! ## Lock counter traces (claim C3)

A run of the service performs a sequence of counter events: each
successful acquire calls `increaseLockCounter`, each release closure
calls `decreaseLockCounter` (per C2, exactly once per successful
acquire). Well-nestedness of a trace — every release matches a prior
unreleased acquire of the same resource, as `applyLock` guarantees —
is expressed by `eventsOk` over running acquire/release counts. -/

/-- One counter-affecting event of a service run. -/
inductive LockEvent where
  | acq (resource : String)
  | rel (resource : String)
  deriving DecidableEq, Repr

/-- Effect of one event on the `lockCounter` object. -/
def applyCounterEvent (m : LockCounter) : LockEvent → LockCounter
  | .acq r => increaseLockCounter m r
  | .rel r => decreaseLockCounter m r

/-- The `lockCounter` object after a trace of events. -/
def runCounter (events : List LockEvent) (m : LockCounter) : LockCounter :=
  events.foldl applyCounterEvent m

/-- Number of acquires of resource `x` in a trace. -/
def countAcq (events : List LockEvent) (x : String) : Nat :=
  (events.filter (· == LockEvent.acq x)).length

/-- Number of releases of resource `x` in a trace. -/
def countRel (events : List LockEvent) (x : String) : Nat :=
  (events.filter (· == LockEvent.rel x)).length

/-- Trace discipline relative to running counts `a` (acquires so far) and
`b` (releases so far): every release happens while its resource has an
outstanding acquire. -/
def eventsOk (a b : String → Nat) : List LockEvent → Bool
  | [] => true
  | .acq r :: rest =>
    eventsOk (fun x => if x = r then a x + 1 else a x) b rest
  | .rel r :: rest =>
    decide (b r < a r) &&
      eventsOk a (fun x => if x = r then b x + 1 else b x) rest

/-- A trace of acquire/release pairs as produced through `applyLock`. -/
def wellNested (events : List LockEvent) : Bool :=
  eventsOk (fun _ => 0) (fun _ => 0) events

/-- Invariant tying the stored object to the running counts: each
resource's entry is absent when never acquired and otherwise holds the
number of outstanding acquisitions. -/
def counterInv (m : LockCounter) (a b : String → Nat) : Prop :=
  ∀ r, b r ≤ a r ∧
    m r = (if a r = 0 then JsVal.undef
           else JsVal.int ((a r : Int) - (b r : Int)))

/-! ## Graceful shutdown (`DistributedLockService.shutdown`, claim C4)

The `shutdown` method busy-polls `areAllLocksReleased()` with
`await setTimeout(250)`, then — guarded by the re-entrant `shuttingDown`
flag — quits the redlock client and clears `this.distributedLock` in a
`finally` block. Two concurrent `shutdown()` calls are modelled as two
coroutines interleaving on the shared service state; the single JS thread
only yields at `await` points, so everything between two awaits is one
atomic transition. The lock counter is abstracted to the boolean result of
`areAllLocksReleased()`, which the environment (other workers releasing
their locks) may switch to true; during shutdown no new work starts, so
the switch is monotone. -/

/-- Program counter of one `shutdown()` invocation. -/
inductive DrainPc where
  /-- Before the outer `if (this.distributedLock)` check. -/
  | start
  /-- Inside the `while (!this.areAllLocksReleased())` loop. -/
  | polling
  /-- Inside the guarded block, suspended on `await distributedLock.quit()`. -/
  | finishing
  /-- Returned after performing the quit and its `finally` block. -/
  | doneQuit
  /-- Returned after `this.distributedLock.quit()` threw synchronously on an
  undefined client (caught and logged), with the `finally` block run. -/
  | doneCaught
  /-- Returned without entering the guarded block (no client configured at
  entry, or `shuttingDown` already set by the other call). -/
  | doneSkip
  deriving DecidableEq, Repr

/-- Shared service state seen by concurrent `shutdown()` calls. -/
structure DrainState where
  /-- Abstraction of `areAllLocksReleased()` over the lock counter. -/
  allLocksReleased : Bool
  /-- The re-entrant guard flag `this.shuttingDown`. -/
  shuttingDown : Bool
  /-- Whether `this.distributedLock` is still defined. -/
  lockDefined : Bool
  /-- Number of `quit()` calls performed on the (defined) redlock client. -/
  quitCalls : Nat
  /-- Number of completed `await setTimeout(250)` sleeps. -/
  polls : Nat
  /-- Total time spent sleeping in the poll loops. -/
  elapsedMs : Nat
  deriving DecidableEq, Repr

/-- A configuration: shared state plus the two coroutines' counters. -/
structure DrainConfig where
  st : DrainState
  a : DrainPc
  b : DrainPc
  deriving DecidableEq, Repr

/-- Atomic transitions of one `shutdown()` coroutine, between `await`
points of the source. -/
inductive CoStep : DrainState → DrainPc → DrainState → DrainPc → Prop where
  /-- Entry check `if (this.distributedLock)` succeeds: enter the loop. -/
  | startEnter (s : DrainState) : s.lockDefined = true →
      CoStep s .start s .polling
  /-- Entry check fails: the whole body is skipped. -/
  | startSkip (s : DrainState) : s.lockDefined = false →
      CoStep s .start s .doneSkip
  /-- Loop condition holds: `await setTimeout(250)` and re-check. -/
  | pollWait (s : DrainState) : s.allLocksReleased = false →
      CoStep s .polling
        { s with polls := s.polls + 1, elapsedMs := s.elapsedMs + 250 }
        .polling
  /-- Loop exits with the guard flag clear and the client defined: set
  `shuttingDown = true` and initiate `await this.distributedLock.quit()`
  in one synchronous stretch. -/
  | guardQuit (s : DrainState) : s.allLocksReleased = true →
      s.shuttingDown = false → s.lockDefined = true →
      CoStep s .polling
        { s with shuttingDown := true, quitCalls := s.quitCalls + 1 }
        .finishing
  /-- Loop exits with the guard flag clear but the client already cleared
  by the other call's `finally`: `this.distributedLock.quit()` throws
  synchronously, the `catch` logs it and the `finally` resets the flag and
  the client, all without yielding. No backend quit is performed. -/
  | guardCaught (s : DrainState) : s.allLocksReleased = true →
      s.shuttingDown = false → s.lockDefined = false →
      CoStep s .polling s .doneCaught
  /-- Loop exits while the other call holds the guard flag: skip. -/
  | guardSkip (s : DrainState) : s.allLocksReleased = true →
      s.shuttingDown = true →
      CoStep s .polling s .doneSkip
  /-- The awaited `quit()` settles (fulfilled, or rejected and caught):
  the `finally` block resets the flag and clears the client. -/
  | finishQuit (s : DrainState) :
      CoStep s .finishing
        { s with shuttingDown := false, lockDefined := false } .doneQuit

/-- Interleaving of two concurrent `shutdown()` calls, plus the
environment releasing outstanding locks. -/
inductive DrainStep : DrainConfig → DrainConfig → Prop where
  | left {st st' : DrainState} {a a' b : DrainPc} :
      CoStep st a st' a' → DrainStep ⟨st, a, b⟩ ⟨st', a', b⟩
  | right {st st' : DrainState} {a b b' : DrainPc} :
      CoStep st b st' b' → DrainStep ⟨st, a, b⟩ ⟨st', a, b'⟩
  | envRelease {st : DrainState} {a b : DrainPc} :
      DrainStep ⟨st, a, b⟩ ⟨{ st with allLocksReleased := true }, a, b⟩

/-- Reachability by interleaved execution. -/
inductive DrainReach : DrainConfig → DrainConfig → Prop where
  | refl (c : DrainConfig) : DrainReach c c
  | tail {c c' c'' : DrainConfig} :
      DrainReach c c' → DrainStep c' c'' → DrainReach c c''

/-- Both calls start with a configured client, a clear guard flag, no quit
performed, and locks still outstanding. -/
def drainInit : DrainConfig :=
  ⟨⟨false, false, true, 0, 0, 0⟩, .start, .start⟩

/-- A coroutine that has returned from `shutdown()`. -/
def DrainPc.isDone : DrainPc → Bool
  | .doneQuit => true
  | .doneCaught => true
  | .doneSkip => true
  | _ => false

/-- Inductive invariant of the two-drain system. -/
def DrainInv (c : DrainConfig) : Prop :=
  (c.st.shuttingDown = true ↔
    (c.a = DrainPc.finishing ∨ c.b = DrainPc.finishing)) ∧
  ¬ (c.a = DrainPc.finishing ∧ c.b = DrainPc.finishing) ∧
  (c.st.lockDefined = true ↔
    ¬ (c.a = DrainPc.doneQuit ∨ c.b = DrainPc.doneQuit)) ∧
  c.st.quitCalls =
    (if c.a = DrainPc.finishing ∨ c.a = DrainPc.doneQuit ∨
        c.b = DrainPc.finishing ∨ c.b = DrainPc.doneQuit
     then 1 else 0) ∧
  (c.a ≠ DrainPc.start → c.a ≠ DrainPc.polling →
    c.st.allLocksReleased = true) ∧
  (c.b ≠ DrainPc.start → c.b ≠ DrainPc.polling →
    c.st.allLocksReleased = true) ∧
  ((c.a = DrainPc.doneCaught ∨ c.a = DrainPc.doneSkip) →
    (c.b = DrainPc.finishing ∨ c.b = DrainPc.doneQuit)) ∧
  ((c.b = DrainPc.doneCaught ∨ c.b = DrainPc.doneSkip) →
    (c.a = DrainPc.finishing ∨ c.a = DrainPc.doneQuit)) ∧
  c.st.elapsedMs = 250 * c.st.polls

/-- A reachable configuration in which both drains have completed: the
first call performed the quit, the second skipped the guarded block. -/
def drainFinal : DrainConfig :=
  ⟨⟨true, false, false, 1, 0, 0⟩, .doneQuit, .doneSkip⟩

/-! ## Notification job builder (`CreateNotificationJobs`)

Embeds `createSteps`, `filterActiveSteps`, `filterDigestSteps` and the
job-materialization loop of `execute`. The digest filter
(`DigestFilterSteps.execute`) is an external collaborator passed in as a
function of the digest type and the step list it receives — which in the
source is `command.template.steps`, the template's full unfiltered list.
Persistence ids (notification, environment, organization, transaction)
are elided from the job record. -/

/-- Step types of `StepTypeEnum` (workflow step kinds). -/
inductive StepTypeEnum where
  | inApp
  | email
  | sms
  | chat
  | push
  | digest
  | delay
  | trigger
  deriving DecidableEq, Repr

/-- Digest metadata types of `DigestTypeEnum`. -/
inductive DigestTypeEnum where
  | regular
  | backoff
  | timed
  deriving DecidableEq, Repr

/-- Job lifecycle statuses of `JobStatusEnum`. -/
inductive JobStatusEnum where
  | pending
  | queued
  | running
  | completed
  | failed
  deriving DecidableEq, Repr

/-- A message template (`MessageTemplateEntity`); only the step type is
read by the builder. -/
structure MessageTemplate where
  type : StepTypeEnum
  deriving DecidableEq, Repr

/-- A template step (`NotificationStepEntity`); `metadataType` models
`step.metadata?.type`. -/
structure NotificationStep where
  _templateId : String
  active : Bool
  template : Option MessageTemplate
  metadataType : Option DigestTypeEnum
  deriving DecidableEq, Repr

/-- One materialized notification job (`NotificationJob`); the fields the
builder derives from the step. -/
structure NotificationJob where
  step : NotificationStep
  status : JobStatusEnum
  type : StepTypeEnum
  digest : Option DigestTypeEnum
  deriving DecidableEq, Repr

/-- Embedding of `CreateNotificationJobs.filterActiveSteps`:
`steps.filter((step) => step.active === true)`. -/
def filterActiveSteps (steps : List NotificationStep) :
    List NotificationStep :=
  steps.filter (fun step => step.active == true)

/-- Condition of the digest-step lookup:
`step.template?.type === StepTypeEnum.DIGEST`. -/
def isDigestStep (step : NotificationStep) : Bool :=
  step.template.map (·.type) == some StepTypeEnum.digest

/-- Embedding of `CreateNotificationJobs.filterDigestSteps`: finds the
first digest step among `steps`; when it exists and has a metadata type,
returns the digest filter collaborator's output on the template's full
step list, otherwise returns `steps` unchanged. -/
def filterDigestSteps
    (digestFilter :
      DigestTypeEnum → List NotificationStep → List NotificationStep)
    (templateSteps steps : List NotificationStep) :
    List NotificationStep :=
  match steps.find? isDigestStep with
  | some digestStep =>
    match digestStep.metadataType with
    | some t => digestFilter t templateSteps
    | none => steps
  | none => steps

/-- Embedding of `CreateNotificationJobs.createSteps`: active-filter the
template's steps, then apply the digest filtering. -/
def createSteps
    (digestFilter :
      DigestTypeEnum → List NotificationStep → List NotificationStep)
    (templateSteps : List NotificationStep) : List NotificationStep :=
  filterDigestSteps digestFilter templateSteps
    (filterActiveSteps templateSteps)

/-- Embedding of the job loop of `CreateNotificationJobs.execute`: one
PENDING job per resulting step; a step without a template raises
`ApiException('Step template was not found')`. -/
def buildJobs (steps : List NotificationStep) :
    Except String (List NotificationJob) :=
  steps.mapM (fun step =>
    match step.template with
    | none => .error "Step template was not found"
    | some tmpl =>
      .ok { step := step, status := JobStatusEnum.pending,
            type := tmpl.type, digest := step.metadataType })

/-- Steps-to-jobs pipeline of `CreateNotificationJobs.execute` (the
notification-entity creation, which precedes it, is elided). -/
def createNotificationJobs
    (digestFilter :
      DigestTypeEnum → List NotificationStep → List NotificationStep)
    (templateSteps : List NotificationStep) :
    Except String (List NotificationJob) :=
  buildJobs (createSteps digestFilter templateSteps)

/-- Decidable equality of builder results, for concrete evaluation. -/
instance {ε α : Type} [DecidableEq ε] [DecidableEq α] :
    DecidableEq (Except ε α) := fun x y =>
  match x, y with
  | .ok a, .ok b => decidable_of_iff (a = b) (by simp)
  | .error a, .error b => decidable_of_iff (a = b) (by simp)
  | .ok _, .error _ => isFalse (fun h => by cases h)
  | .error _, .ok _ => isFalse (fun h => by cases h)

/-- Step A of the spec's example: active, in-app, no digest metadata. -/
def stepA : NotificationStep := ⟨"A", true, some ⟨.inApp⟩, none⟩

/-- Step B of the spec's example: inactive. -/
def stepB : NotificationStep := ⟨"B", false, some ⟨.email⟩, none⟩

/-- Step C of the spec's example: active digest step. -/
def stepC : NotificationStep := ⟨"C", true, some ⟨.digest⟩, some .regular⟩

/-- The aggregated digest step the example's digest filter returns. -/
def stepCp : NotificationStep :=
  ⟨"C-prime", true, some ⟨.digest⟩, some .regular⟩

/-- The example's digest filter collaborator, returning `[C\x27]`. -/
def exampleDigestFilter :
    DigestTypeEnum → List NotificationStep → List NotificationStep :=
  fun _ _ => [stepCp]

/-! ## Cache layer (`CacheService`, `InvalidateCacheService`)

The redis backend is modelled by `RedisBackend`: function maps for string
values, per-key expirations and set values. Each service operation returns
the updated backend together with the list of backend commands it issued
(`this.client` calls); with no client configured the optional-chaining
guards make every operation a no-op. TTL arithmetic is over exact
rationals, idealizing JS float arithmetic; `Math.random()` draws are
passed in as a parameter `r`. -/

/-- Modelled from the spec: `QUERY_PREFIX` lives in
`cache/key-builders/shared`, which is not among the sources. The spec
describes query-set members as query-discriminator suffixes under a
credentials/scope prefix; the concrete literal is immaterial to the
theorems. -/
def QUERY_PREFIX : String := "#query#"

/-- The member-key delimiter template literal of `splitKey`. -/
def keyDelimiter : String := ":" ++ QUERY_PREFIX ++ "="

/-- Result of `splitKey`. -/
structure SplitKeyResult where
  credentials : String
  query : String
  deriving DecidableEq, Repr

/-- Splitting at the first occurrence of a separator: the part before it
and the part after it, or `none` when the separator does not occur. -/
def splitFirstAux (sep : List Char) : List Char → Option (List Char × List Char)
  | [] => none
  | c :: rest =>
    if sep.isPrefixOf (c :: rest) then some ([], (c :: rest).drop sep.length)
    else
      match splitFirstAux sep rest with
      | none => none
      | some (pre, post) => some (c :: pre, post)

/-- Embedding of the exported `splitKey` helper:
`key.split(keyDelimiter)`, of which the source reads `keyParts[0]` (the
credentials scope) and `keyParts[1]` (the query discriminator). JS
`String.split` is modelled character-wise up to the first two parts; a
missing `keyParts[1]` — JS `undefined` — is modelled as `""`. -/
def splitKey (key : String) : SplitKeyResult :=
  match splitFirstAux keyDelimiter.data key.data with
  | none => { credentials := key, query := "" }
  | some (pre, post) =>
    { credentials := ⟨pre⟩,
      query :=
        match splitFirstAux keyDelimiter.data post with
        | none => ⟨post⟩
        | some (qpre, _) => ⟨qpre⟩ }

/-- A redis client object; only its connection status is observable here
(`CLIENT_READY = \x27ready\x27 in the redis provider). -/
structure RedisClient where
  status : String
  deriving DecidableEq, Repr

/-- Modelled from the spec: `InMemoryProviderService.isClientReady` is not
among the sources; §4.3 of the spec equates `cacheEnabled() == false` with
"the backend is not configured", so readiness is modelled as the client
being configured at all. -/
def isClientReady (client : Option RedisClient) : Bool :=
  client.isSome

/-- Embedding of `CacheService.cacheEnabled`. -/
def cacheEnabled (client : Option RedisClient) : Bool :=
  isClientReady client

/-- The shared in-memory store: string values, expirations, sets. -/
structure RedisBackend where
  kv : String → Option String
  ttls : String → Option ℚ
  sets : String → Option (List String)

/-- A store with no keys. -/
def emptyRedis : RedisBackend :=
  ⟨fun _ => none, fun _ => none, fun _ => none⟩

/-- One command issued to the backend client. -/
inductive RedisCmd where
  | setCmd (key value : String) (ttl : ℚ)
  | getCmd (key : String)
  | delCmd (keys : List String)
  | saddCmd (key member : String)
  | expireCmd (key : String) (ttl : ℚ)
  | smembersCmd (key : String)
  | scanCmd (pattern : String)
  deriving DecidableEq, Repr

/-- Backend `SET key value EX ttl`. -/
def redisSet (b : RedisBackend) (k v : String) (ttl : ℚ) : RedisBackend :=
  { b with kv := fun x => if x = k then some v else b.kv x,
           ttls := fun x => if x = k then some ttl else b.ttls x }

/-- Backend `SADD key member` (adds the member when absent). -/
def redisSadd (b : RedisBackend) (k m : String) : RedisBackend :=
  let cur := (b.sets k).getD []
  let updated := if m ∈ cur then cur else cur ++ [m]
  { b with sets := fun x => if x = k then some updated else b.sets x }

/-- Backend `EXPIRE key ttl` (a no-op on a nonexistent key). -/
def redisExpire (b : RedisBackend) (k : String) (ttl : ℚ) : RedisBackend :=
  if (b.kv k).isSome || (b.sets k).isSome then
    { b with ttls := fun x => if x = k then some ttl else b.ttls x }
  else b

/-- Backend `DEL` of one key (removes a key of any type). -/
def redisDelOne (b : RedisBackend) (k : String) : RedisBackend :=
  { kv := fun x => if x = k then none else b.kv x,
    ttls := fun x => if x = k then none else b.ttls x,
    sets := fun x => if x = k then none else b.sets x }

/-- Backend `DEL` of a key list. -/
def redisDel (b : RedisBackend) (ks : List String) : RedisBackend :=
  ks.foldl redisDelOne b

/-- Backend `SMEMBERS key` (empty for an absent set). -/
def redisSmembers (b : RedisBackend) (k : String) : List String :=
  (b.sets k).getD []

/-- The constant `TTL_VARIANT_PERCENTAGE = 0.1`. -/
def TTL_VARIANT_PERCENTAGE : ℚ := 1 / 10

/-- Embedding of `CacheService.ttlVariant`: subtract half the variant
percentage, add a random variant, and `Math.floor` the result; `r` is the
`Math.random()` draw in `[0, 1)`. -/
def ttlVariant (num r : ℚ) : Int :=
  let variant := TTL_VARIANT_PERCENTAGE * num * r
  ⌊num - (TTL_VARIANT_PERCENTAGE * num) / 2 + variant⌋

/-- Embedding of `CacheService.getTtlInSeconds`:
`options?.ttl || this.cacheTtl` — the JS `||` falls back on `0`. -/
def getTtlInSeconds (optTtl : Option ℚ) (cacheTtl : ℚ) (r : ℚ) : Int :=
  let seconds :=
    match optTtl with
    | some t => if t = 0 then cacheTtl else t
    | none => cacheTtl
  ttlVariant seconds r

/-- Embedding of `CacheService.set`: `this.client?.set(key, value,
\x27EX\x27, this.getTtlInSeconds(options))`. -/
def cacheSet (client : Option RedisClient) (cacheTtl : ℚ)
    (b : RedisBackend) (key value : String) (optTtl : Option ℚ) (r : ℚ) :
    RedisBackend × List RedisCmd :=
  match client with
  | none => (b, [])
  | some _ =>
    let ttl := (getTtlInSeconds optTtl cacheTtl r : ℚ)
    (redisSet b key value ttl, [.setCmd key value ttl])

/-- Embedding of `CacheService.get`: `this.client?.get(key)`. -/
def cacheGet (client : Option RedisClient) (b : RedisBackend)
    (key : String) : Option String × List RedisCmd :=
  match client with
  | none => (none, [])
  | some _ => (b.kv key, [.getCmd key])

/-- The `key: string | string[]` argument of `CacheService.del`. -/
inductive KeyArg where
  | single (key : String)
  | multiple (keys : List String)
  deriving DecidableEq, Repr

/-- Embedding of `CacheService.del`: wraps a single key into an array and
issues `this.client?.del(keys)`. -/
def cacheDel (client : Option RedisClient) (b : RedisBackend)
    (key : KeyArg) : RedisBackend × List RedisCmd :=
  let keys := match key with
    | .single k => [k]
    | .multiple ks => ks
  match client with
  | none => (b, [])
  | some _ => (redisDel b keys, [.delCmd keys])

/-- Embedding of `CacheService.setQuery`: under a configured client, one
pipeline of `sadd(credentials, query)`, `expire(credentials,
config.ttl + getTtlInSeconds(options))` and `set(key, value, EX, ttl)`. -/
def cacheSetQuery (client : Option RedisClient) (cacheTtl : ℚ)
    (b : RedisBackend) (key value : String) (optTtl : Option ℚ) (r : ℚ) :
    RedisBackend × List RedisCmd :=
  match client with
  | none => (b, [])
  | some _ =>
    let split := splitKey key
    let ttl := (getTtlInSeconds optTtl cacheTtl r : ℚ)
    let b1 := redisSadd b split.credentials split.query
    let b2 := redisExpire b1 split.credentials (cacheTtl + ttl)
    let b3 := redisSet b2 key value ttl
    (b3, [.saddCmd split.credentials split.query,
          .expireCmd split.credentials (cacheTtl + ttl),
          .setCmd key value ttl])

/-- Embedding of `CacheService.delQuery`: reads the scope's members;
returns early when there are none; otherwise one pipeline deleting every
member entry `` `${key}:${QUERY_PREFIX}=${query}` `` and the set itself. -/
def cacheDelQuery (client : Option RedisClient) (b : RedisBackend)
    (key : String) : RedisBackend × List RedisCmd :=
  match client with
  | none => (b, [])
  | some _ =>
    let queries := redisSmembers b key
    if queries.length = 0 then (b, [.smembersCmd key])
    else
      let fullKeys :=
        queries.map (fun query => key ++ ":" ++ QUERY_PREFIX ++ "=" ++ query)
      (redisDel b (fullKeys ++ [key]),
       [.smembersCmd key] ++ fullKeys.map (fun fk => RedisCmd.delCmd [fk]) ++
         [.delCmd [key]])

/-! ## Pattern deletion stream (`CacheService.delByPattern`, claim C6)

The scan stream is modelled as the list of events it emits, in emission
order; the promise executor's handlers stay attached for the stream's
whole lifetime, and a promise settles only once (the first `resolve` or
`reject` wins), so the interpreter keeps deleting on later pages while
recording the settling event. -/

/-- One event emitted by `inMemoryScan(pattern)`. -/
inductive ScanEvent where
  /-- A `data` event carrying one page of matching keys. -/
  | page (keys : List String)
  /-- The `end` event. -/
  | endOfStream
  /-- An `error` event. -/
  | errorEvent (msg : String)
  deriving DecidableEq, Repr

/-- How the `delByPattern` promise settled. -/
inductive ScanSettle where
  /-- Resolution with a page's `pipeline.exec()` results. -/
  | resolvedPipeline
  /-- Resolution with `undefined` from the `end` handler. -/
  | resolvedEnd
  /-- Rejection from the `error` handler (or a failed `exec`). -/
  | rejected (msg : String)
  deriving DecidableEq, Repr

/-- Observable outcome of a `delByPattern` call. -/
structure DelByPatternRun where
  backend : RedisBackend
  /-- All keys deleted over the stream's lifetime. -/
  deleted : List String
  /-- The settling event's index and the kind of settlement, if any. -/
  settled : Option (Nat × ScanSettle)
  /-- The keys that had been deleted when the promise settled. -/
  deletedAtSettle : List String
  cmds : List RedisCmd

/-- Effect of one stream event at index `idx`: a non-empty `data` page is
deleted through a pipeline whose `exec` then resolves the promise (if
still pending); `end` resolves with `undefined`; `error` rejects. Empty
pages do nothing. -/
def delByPatternStep (st : DelByPatternRun) (idx : Nat) (e : ScanEvent) :
    DelByPatternRun :=
  match e with
  | .page keys =>
    if keys.length ≠ 0 then
      let st1 :=
        { st with backend := redisDel st.backend keys,
                  deleted := st.deleted ++ keys,
                  cmds := st.cmds ++
                    keys.map (fun k => RedisCmd.delCmd [k]) }
      match st1.settled with
      | some _ => st1
      | none =>
        { st1 with settled := some (idx, .resolvedPipeline),
                   deletedAtSettle := st1.deleted }
    else st
  | .endOfStream =>
    match st.settled with
    | some _ => st
    | none =>
      { st with settled := some (idx, .resolvedEnd),
                deletedAtSettle := st.deleted }
  | .errorEvent msg =>
    match st.settled with
    | some _ => st
    | none =>
      { st with settled := some (idx, .rejected msg),
                deletedAtSettle := st.deleted }

/-- Consumption of the stream's events from index `idx` on. -/
def delByPatternEvents (st : DelByPatternRun) (idx : Nat) :
    List ScanEvent → DelByPatternRun
  | [] => st
  | e :: rest => delByPatternEvents (delByPatternStep st idx e) (idx + 1) rest

/-- Embedding of `CacheService.delByPattern`: with no client the method
returns `undefined` without scanning; otherwise it starts the key scan
and reacts to its events. -/
def cacheDelByPattern (client : Option RedisClient) (b : RedisBackend)
    (pattern : String) (events : List ScanEvent) : DelByPatternRun :=
  match client with
  | none => ⟨b, [], none, [], []⟩
  | some _ => delByPatternEvents ⟨b, [], none, [], [.scanCmd pattern]⟩ 0 events

/-- An event that settles a pending `delByPattern` promise. -/
def isSettler : ScanEvent → Bool
  | .page keys => keys.length != 0
  | .endOfStream => true
  | .errorEvent _ => true

/-- The settlement an event produces when the promise is still pending. -/
def settleOf : ScanEvent → ScanSettle
  | .page _ => .resolvedPipeline
  | .endOfStream => .resolvedEnd
  | .errorEvent msg => .rejected msg

/-- Index and kind of the first settling event, counting from `idx`. -/
def firstSettlerFrom (idx : Nat) : List ScanEvent → Option (Nat × ScanSettle)
  | [] => none
  | e :: rest =>
    if isSettler e then some (idx, settleOf e)
    else firstSettlerFrom (idx + 1) rest

/-- All keys carried by `data` pages of the stream, in order. -/
def allPageKeys : List ScanEvent → List String
  | [] => []
  | .page keys :: rest => keys ++ allPageKeys rest
  | .endOfStream :: rest => allPageKeys rest
  | .errorEvent _ :: rest => allPageKeys rest

/-! ## Cache invalidation (`InvalidateCacheService`) -/

/-- Embedding of `InvalidateCacheService.invalidateByKey`: short-circuits
when the cache is disabled, otherwise deletes the key; backend errors are
caught and logged (error outcomes are not modelled — the backend map
operations cannot fail). -/
def invalidateByKey (client : Option RedisClient) (b : RedisBackend)
    (key : String) : RedisBackend × List RedisCmd :=
  if !(cacheEnabled client) then (b, [])
  else cacheDel client b (.single key)

/-- Embedding of `InvalidateCacheService.invalidateQuery`: short-circuits
when the cache is disabled, otherwise deletes the query scope. -/
def invalidateQuery (client : Option RedisClient) (b : RedisBackend)
    (key : String) : RedisBackend × List RedisCmd :=
  if !(cacheEnabled client) then (b, [])
  else cacheDelQuery client b key

/-- A two-page scan stream followed by its `end` event. -/
def scanTwoPages : List ScanEvent :=
  [.page ["k1"], .page ["k2"], .endOfStream]

/-- C1: for every failed job whose error is backoff-eligible by
`shouldBackoff` and whose `attemptsMade` equals `DEFAULT_ATTEMPTS` (3), the
failure handler marks the job FAILED, records the terminal execution-detail
record carrying the raw error, and, unless the step has `shouldStopOnFail`,
performs exactly one next-job enqueue call; for every failed job whose
error is not backoff-eligible, the handler immediately marks the job
FAILED. -/
theorem jobHasFailed_last_attempt_behavior {ε : Type}
    (shouldBackoff : ε → Bool) (rawOf : ε → String) (job : QueueJob)
    (error : ε) :
    (shouldBackoff error = true → job.attemptsMade = DEFAULT_ATTEMPTS →
      jobHasFailed shouldBackoff rawOf job error =
        [JobAction.setJobAsFailed error,
         JobAction.createExecutionDetail WEBHOOK_FILTER_FAILED_LAST_RETRY
           (rawOf error)] ++
        (if stopOnFailOf job then [] else [JobAction.queueNextJob]) ∧
      countQueueNext (jobHasFailed shouldBackoff rawOf job error) =
        (if stopOnFailOf job then 0 else 1)) ∧
    (shouldBackoff error = false →
      jobHasFailed shouldBackoff rawOf job error =
        [JobAction.setJobAsFailed error]) := by
  constructor
  · intro hb ha
    cases hs : stopOnFailOf job <;>
      simp [jobHasFailed, handleLastFailedWebhookFilter, hb, ha, hs,
        countQueueNext]
  · intro hb
    simp [jobHasFailed, hb]

/-- Witness for C1: a concrete job at the attempt ceiling with a
backoff-eligible error and `shouldStopOnFail = false` yields exactly the
fail-mark, the execution detail and one next-job enqueue. -/
theorem jobHasFailed_last_attempt_behavior_witness :
    jobHasFailed (fun _ : String => true) id ⟨3, ⟨some ⟨false⟩⟩⟩ "err" =
      [JobAction.setJobAsFailed "err",
       JobAction.createExecutionDetail WEBHOOK_FILTER_FAILED_LAST_RETRY
         "err"] ++
      (if stopOnFailOf ⟨3, ⟨some ⟨false⟩⟩⟩ then []
       else [JobAction.queueNextJob]) ∧
    countQueueNext
        (jobHasFailed (fun _ : String => true) id ⟨3, ⟨some ⟨false⟩⟩⟩
          "err") =
      (if stopOnFailOf ⟨3, ⟨some ⟨false⟩⟩⟩ then 0 else 1) :=
  (jobHasFailed_last_attempt_behavior (fun _ : String => true) id
    ⟨3, ⟨some ⟨false⟩⟩⟩ "err").1 rfl rfl

/-- C10: for every failed job whose error is backoff-eligible and whose
`attemptsMade` is strictly below `DEFAULT_ATTEMPTS`, the failure handler
performs no action at all: no status update, no execution detail record,
no next-job enqueue. -/
theorem jobHasFailed_intermediate_retry_no_effect {ε : Type}
    (shouldBackoff : ε → Bool) (rawOf : ε → String) (job : QueueJob)
    (error : ε) (hb : shouldBackoff error = true)
    (ha : job.attemptsMade < DEFAULT_ATTEMPTS) :
    jobHasFailed shouldBackoff rawOf job error = [] := by
  simp [jobHasFailed, hb, Nat.ne_of_lt ha]

/-- Witness for C10: a concrete job on its first failed attempt with a
backoff-eligible error produces the empty action list. -/
theorem jobHasFailed_intermediate_retry_no_effect_witness :
    jobHasFailed (fun _ : String => true) id ⟨1, ⟨some ⟨true⟩⟩⟩ "err" =
      [] :=
  jobHasFailed_intermediate_retry_no_effect (fun _ : String => true) id
    ⟨1, ⟨some ⟨true⟩⟩⟩ "err" rfl (by decide)

/-- C2: whenever the lock manager is enabled and acquisition succeeds,
`applyLock` invokes the release closure exactly once — also when the
handler throws — returns the handler's result or propagates its exception,
and an error thrown by `unlock` during release is logged and never
propagated. -/
theorem applyLock_release_exactly_once {α : Type} (resource : String)
    (handlerOutcome : Except String α) (unlockOutcome : Except String Unit)
    (s : LockSvcState) :
    (applyLock true resource (.ok ()) handlerOutcome unlockOutcome
        s).1.releaseCalls = s.releaseCalls + 1 ∧
    (applyLock true resource (.ok ()) handlerOutcome unlockOutcome s).2 =
      handlerOutcome ∧
    (∀ msg, unlockOutcome = .error msg →
      msg ∈ (applyLock true resource (.ok ()) handlerOutcome unlockOutcome
        s).1.loggedErrors) := by
  refine ⟨?_, ?_, ?_⟩ <;>
    cases unlockOutcome <;>
      simp [applyLock, tryFinally, lockRelease, catchLog, unlockCall]

/-- Witness for C2: concretely, with a throwing handler and a throwing
unlock, the release closure runs once, the handler's error propagates, and
the unlock error is logged. -/
theorem applyLock_release_exactly_once_witness :
    (applyLock true "lock:r" (.ok ()) (.error "handler boom" : Except String Unit)
        (.error "unlock boom")
        ⟨initialLockCounter, 0, 0, []⟩).1.releaseCalls = 0 + 1 ∧
    (applyLock true "lock:r" (.ok ()) (.error "handler boom" : Except String Unit)
        (.error "unlock boom") ⟨initialLockCounter, 0, 0, []⟩).2 =
      (.error "handler boom" : Except String Unit) ∧
    "unlock boom" ∈ (applyLock true "lock:r" (.ok ())
        (.error "handler boom" : Except String Unit) (.error "unlock boom")
        ⟨initialLockCounter, 0, 0, []⟩).1.loggedErrors :=
  ⟨(applyLock_release_exactly_once "lock:r" (.error "handler boom")
      (.error "unlock boom") ⟨initialLockCounter, 0, 0, []⟩).1,
   (applyLock_release_exactly_once "lock:r" (.error "handler boom")
      (.error "unlock boom") ⟨initialLockCounter, 0, 0, []⟩).2.1,
   (applyLock_release_exactly_once "lock:r" (.error "handler boom")
      (.error "unlock boom") ⟨initialLockCounter, 0, 0, []⟩).2.2
     "unlock boom" rfl⟩

/-- Pointwise description of `increaseLockCounter`. -/
lemma increaseLockCounter_apply (m : LockCounter) (r x : String) :
    increaseLockCounter m r x =
      if x = r then
        (if (m r).truthy then (m r).jsIncrement else .int 1)
      else m x := by
  simp only [increaseLockCounter]
  split <;> split <;> simp_all

/-- Pointwise description of `decreaseLockCounter`. -/
lemma decreaseLockCounter_apply (m : LockCounter) (r x : String) :
    decreaseLockCounter m r x = if x = r then (m r).jsDecrement else m x :=
  rfl

lemma counterInv_increase {m : LockCounter} {a b : String → Nat}
    (hinv : counterInv m a b) (r : String) :
    counterInv (increaseLockCounter m r)
      (fun x => if x = r then a x + 1 else a x) b := by
  intro x
  dsimp only
  obtain ⟨hle, hval⟩ := hinv x
  have hmr : ∀ h : x = r, m r = m x := fun h => by rw [h]
  by_cases hx : x = r
  · refine ⟨by rw [if_pos hx]; omega, ?_⟩
    rw [increaseLockCounter_apply, if_pos hx, if_pos hx, hmr hx, hval]
    have hs1 : ¬ (a x + 1 = 0) := by omega
    rw [if_neg hs1]
    by_cases ha0 : a x = 0
    · have hb0 : b x = 0 := by omega
      rw [if_pos ha0]
      simp only [ha0, hb0, JsVal.truthy, Bool.false_eq_true, if_false]
      norm_num
    · rw [if_neg ha0]
      by_cases hab : ((a x : Int) - (b x : Int)) = 0
      · rw [hab]
        have h1 : ((a x + 1 : Nat) : Int) - (b x : Int) = 1 := by
          push_cast; omega
        rw [h1]
        simp [JsVal.truthy]
      · have ht : (JsVal.int ((a x : Int) - (b x : Int))).truthy = true := by
          simp [JsVal.truthy, hab]
        rw [ht, if_pos rfl]
        show JsVal.int ((a x : Int) - (b x : Int) + 1) = _
        congr 1
        push_cast
        omega
  · refine ⟨by rw [if_neg hx]; omega, ?_⟩
    rw [increaseLockCounter_apply, if_neg hx, hval]
    rw [if_neg hx]

lemma counterInv_decrease {m : LockCounter} {a b : String → Nat}
    (hinv : counterInv m a b) (r : String) (hlt : b r < a r) :
    counterInv (decreaseLockCounter m r) a
      (fun x => if x = r then b x + 1 else b x) := by
  intro x
  dsimp only
  obtain ⟨hle, hval⟩ := hinv x
  have hmr : ∀ h : x = r, m r = m x := fun h => by rw [h]
  have hba : b r + 1 ≤ a r := hlt
  by_cases hx : x = r
  · refine ⟨by rw [if_pos hx]; rw [hx]; omega, ?_⟩
    rw [decreaseLockCounter_apply, if_pos hx, if_pos hx, hmr hx, hval]
    have ha0 : ¬ (a x = 0) := by rw [hx]; omega
    rw [if_neg ha0, if_neg ha0]
    show JsVal.int ((a x : Int) - (b x : Int) - 1) = _
    congr 1
    push_cast
    omega
  · refine ⟨by rw [if_neg hx]; omega, ?_⟩
    rw [decreaseLockCounter_apply, if_neg hx, hval]
    rw [if_neg hx]

lemma countAcq_cons (e : LockEvent) (rest : List LockEvent) (x : String) :
    countAcq (e :: rest) x =
      (if e = LockEvent.acq x then 1 else 0) + countAcq rest x := by
  by_cases he : e = LockEvent.acq x <;>
    simp [countAcq, List.filter_cons, he, Nat.add_comm]

lemma countRel_cons (e : LockEvent) (rest : List LockEvent) (x : String) :
    countRel (e :: rest) x =
      (if e = LockEvent.rel x then 1 else 0) + countRel rest x := by
  by_cases he : e = LockEvent.rel x <;>
    simp [countRel, List.filter_cons, he, Nat.add_comm]

lemma runCounter_inv (events : List LockEvent) :
    ∀ (m : LockCounter) (a b : String → Nat), counterInv m a b →
      eventsOk a b events = true →
      counterInv (runCounter events m)
        (fun x => a x + countAcq events x)
        (fun x => b x + countRel events x) := by
  induction events with
  | nil =>
    intro m a b hinv _
    simpa [counterInv, runCounter, countAcq, countRel] using hinv
  | cons e rest ih =>
    intro m a b hinv hok
    cases e with
    | acq r =>
      simp only [eventsOk] at hok
      have h2 := ih _ _ _ (counterInv_increase hinv r) hok
      intro x
      dsimp only
      obtain ⟨hle, hval⟩ := h2 x
      dsimp only at hle hval
      have hA : a x + countAcq (LockEvent.acq r :: rest) x =
          (if x = r then a x + 1 else a x) + countAcq rest x := by
        simp only [countAcq_cons, LockEvent.acq.injEq]
        rcases eq_or_ne x r with hx | hx
        · rw [if_pos hx.symm, if_pos hx]
          omega
        · rw [if_neg (Ne.symm hx), if_neg hx]
          omega
      have hB : b x + countRel (LockEvent.acq r :: rest) x =
          b x + countRel rest x := by
        simp [countRel_cons]
      have hrun : runCounter (LockEvent.acq r :: rest) m x =
          runCounter rest (increaseLockCounter m r) x := rfl
      refine ⟨by rw [hA, hB]; exact hle, ?_⟩
      rw [hrun, hval, hA, hB]
    | rel r =>
      simp only [eventsOk, Bool.and_eq_true, decide_eq_true_eq] at hok
      obtain ⟨hlt, hok2⟩ := hok
      have h2 := ih _ _ _ (counterInv_decrease hinv r hlt) hok2
      intro x
      dsimp only
      obtain ⟨hle, hval⟩ := h2 x
      dsimp only at hle hval
      have hA : a x + countAcq (LockEvent.rel r :: rest) x =
          a x + countAcq rest x := by
        simp [countAcq_cons]
      have hB : b x + countRel (LockEvent.rel r :: rest) x =
          (if x = r then b x + 1 else b x) + countRel rest x := by
        simp only [countRel_cons, LockEvent.rel.injEq]
        rcases eq_or_ne x r with hx | hx
        · rw [if_pos hx.symm, if_pos hx]
          omega
        · rw [if_neg (Ne.symm hx), if_neg hx]
          omega
      have hrun : runCounter (LockEvent.rel r :: rest) m x =
          runCounter rest (decreaseLockCounter m r) x := rfl
      refine ⟨by rw [hA, hB]; exact hle, ?_⟩
      rw [hrun, hval, hA, hB]

lemma eventsOk_append (xs : List LockEvent) :
    ∀ (ys : List LockEvent) (a b : String → Nat),
      eventsOk a b (xs ++ ys) = true → eventsOk a b xs = true := by
  induction xs with
  | nil => intro ys a b _; rfl
  | cons e rest ih =>
    intro ys a b h
    cases e with
    | acq r =>
      simp only [List.cons_append, eventsOk] at h ⊢
      exact ih ys _ _ h
    | rel r =>
      simp only [List.cons_append, eventsOk, Bool.and_eq_true] at h ⊢
      exact ⟨h.1, ih ys _ _ h.2⟩

/-- C3: along any well-nested trace of acquire/release events — each
successful acquire increments its resource's counter and each release
decrements it — the stored counter value is never negative, and once the
trace completes (every acquire of `r` matched by a release), the counter
for `r` is zero — absent entirely when `r` was never locked. -/
theorem lockCounter_balanced_trace (events : List LockEvent)
    (h : wellNested events = true) :
    (∀ n r, ¬ (runCounter (events.take n) initialLockCounter r).isNegative) ∧
    (∀ r, countRel events r = countAcq events r →
      runCounter events initialLockCounter r =
        (if countAcq events r = 0 then JsVal.undef else JsVal.int 0)) := by
  have base : counterInv initialLockCounter (fun _ => 0) (fun _ => 0) := by
    intro r
    exact ⟨Nat.le_refl 0, rfl⟩
  constructor
  · intro n r
    have hok : eventsOk (fun _ => 0) (fun _ => 0) (events.take n) = true := by
      refine eventsOk_append _ (events.drop n) _ _ ?_
      rw [List.take_append_drop]
      exact h
    have hinv := runCounter_inv (events.take n) _ _ _ base hok
    obtain ⟨hle, hval⟩ := hinv r
    dsimp only at hle hval
    rw [hval]
    by_cases h0 : 0 + countAcq (events.take n) r = 0
    · rw [if_pos h0]
      simp [JsVal.isNegative]
    · rw [if_neg h0]
      simp only [JsVal.isNegative]
      omega
  · intro r hbal
    have hinv := runCounter_inv events _ _ _ base h
    obtain ⟨hle, hval⟩ := hinv r
    dsimp only at hle hval
    rw [hval]
    by_cases h0 : countAcq events r = 0
    · rw [if_pos (by omega), if_pos h0]
    · rw [if_neg (by omega), if_neg h0]
      congr 1
      omega

/-- Witness for C3: the concrete well-nested trace acquire–release–acquire–
release on resource `"r"` never drives the counter negative and ends with
the counter at zero. -/
theorem lockCounter_balanced_trace_witness :
    (¬ (runCounter
        ([LockEvent.acq "r", LockEvent.rel "r", LockEvent.acq "r",
          LockEvent.rel "r"].take 1) initialLockCounter "r").isNegative) ∧
    runCounter
        [LockEvent.acq "r", LockEvent.rel "r", LockEvent.acq "r",
          LockEvent.rel "r"] initialLockCounter "r" =
      (if countAcq
          [LockEvent.acq "r", LockEvent.rel "r", LockEvent.acq "r",
            LockEvent.rel "r"] "r" = 0 then JsVal.undef
       else JsVal.int 0) :=
  ⟨(lockCounter_balanced_trace
      [LockEvent.acq "r", LockEvent.rel "r", LockEvent.acq "r",
        LockEvent.rel "r"] (by decide)).1 1 "r",
   (lockCounter_balanced_trace
      [LockEvent.acq "r", LockEvent.rel "r", LockEvent.acq "r",
        LockEvent.rel "r"] (by decide)).2 "r" (by decide)⟩

lemma drainInv_init : DrainInv drainInit := by
  refine ⟨?_, ?_, ?_, ?_, ?_, ?_, ?_, ?_, ?_⟩ <;> simp [drainInit]

lemma drainInv_step {c c' : DrainConfig} (hinv : DrainInv c)
    (hstep : DrainStep c c') : DrainInv c' := by
  obtain ⟨st, a, b⟩ := c
  obtain ⟨h1, h2, h3, h4, h5, h6, h7, h8, h9⟩ := hinv
  cases hstep with
  | left h =>
    cases h with
    | startEnter hl =>
      refine ⟨?_, ?_, ?_, ?_, ?_, ?_, ?_, ?_, ?_⟩ <;> simp_all [DrainInv]
    | startSkip hl =>
      refine ⟨?_, ?_, ?_, ?_, ?_, ?_, ?_, ?_, ?_⟩ <;> simp_all [DrainInv]
    | pollWait hz =>
      refine ⟨?_, ?_, ?_, ?_, ?_, ?_, ?_, ?_, ?_⟩ <;> simp_all [DrainInv]
      all_goals omega
    | guardQuit hz hf hl =>
      refine ⟨?_, ?_, ?_, ?_, ?_, ?_, ?_, ?_, ?_⟩ <;> simp_all [DrainInv]
    | guardCaught hz hf hl =>
      refine ⟨?_, ?_, ?_, ?_, ?_, ?_, ?_, ?_, ?_⟩ <;> simp_all [DrainInv]
    | guardSkip hz hf =>
      refine ⟨?_, ?_, ?_, ?_, ?_, ?_, ?_, ?_, ?_⟩ <;> simp_all [DrainInv]
    | finishQuit =>
      refine ⟨?_, ?_, ?_, ?_, ?_, ?_, ?_, ?_, ?_⟩ <;> simp_all [DrainInv]
  | right h =>
    cases h with
    | startEnter hl =>
      refine ⟨?_, ?_, ?_, ?_, ?_, ?_, ?_, ?_, ?_⟩ <;> simp_all [DrainInv]
    | startSkip hl =>
      refine ⟨?_, ?_, ?_, ?_, ?_, ?_, ?_, ?_, ?_⟩ <;> simp_all [DrainInv]
    | pollWait hz =>
      refine ⟨?_, ?_, ?_, ?_, ?_, ?_, ?_, ?_, ?_⟩ <;> simp_all [DrainInv]
      all_goals omega
    | guardQuit hz hf hl =>
      refine ⟨?_, ?_, ?_, ?_, ?_, ?_, ?_, ?_, ?_⟩ <;> simp_all [DrainInv]
    | guardCaught hz hf hl =>
      refine ⟨?_, ?_, ?_, ?_, ?_, ?_, ?_, ?_, ?_⟩ <;> simp_all [DrainInv]
    | guardSkip hz hf =>
      refine ⟨?_, ?_, ?_, ?_, ?_, ?_, ?_, ?_, ?_⟩ <;> simp_all [DrainInv]
    | finishQuit =>
      refine ⟨?_, ?_, ?_, ?_, ?_, ?_, ?_, ?_, ?_⟩ <;> simp_all [DrainInv]
  | envRelease =>
    refine ⟨?_, ?_, ?_, ?_, ?_, ?_, ?_, ?_, ?_⟩ <;> simp_all [DrainInv]

lemma drainInv_reach {c : DrainConfig} (h : DrainReach drainInit c) :
    DrainInv c := by
  induction h with
  | refl => exact drainInv_init
  | tail _ hstep ih => exact drainInv_step ih hstep

/-- C4: in every reachable configuration of two concurrent `shutdown()`
calls, a call that has returned did so only after `areAllLocksReleased()`
held; once both calls have returned, exactly one `quit()` was performed on
the lock backend; and the time spent waiting is 250 ms per poll-loop
iteration. -/
theorem shutdown_concurrent_drain (c : DrainConfig)
    (h : DrainReach drainInit c) :
    (c.a.isDone = true → c.st.allLocksReleased = true) ∧
    (c.a.isDone = true → c.b.isDone = true → c.st.quitCalls = 1) ∧
    c.st.elapsedMs = 250 * c.st.polls := by
  obtain ⟨h1, h2, h3, h4, h5, h6, h7, h8, h9⟩ := drainInv_reach h
  refine ⟨?_, ?_, h9⟩
  · intro hd
    refine h5 ?_ ?_ <;> intro hne <;> (rw [hne] at hd; cases hd)
  · intro hda hdb
    cases hca : c.a <;> cases hcb : c.b <;>
      simp_all [DrainPc.isDone]

/-- Witness for C4: a complete interleaved run — release, both enter,
call A quits while call B skips on the guard flag — reaches `drainFinal`,
where the theorem yields exactly one performed quit. -/
theorem shutdown_concurrent_drain_witness :
    (drainFinal.a.isDone = true → drainFinal.st.allLocksReleased = true) ∧
    (drainFinal.a.isDone = true → drainFinal.b.isDone = true →
      drainFinal.st.quitCalls = 1) ∧
    drainFinal.st.elapsedMs = 250 * drainFinal.st.polls :=
  shutdown_concurrent_drain drainFinal
    (DrainReach.tail
      (DrainReach.tail
        (DrainReach.tail
          (DrainReach.tail
            (DrainReach.tail
              (DrainReach.tail (DrainReach.refl drainInit)
                (@DrainStep.envRelease ⟨false, false, true, 0, 0, 0⟩
                  DrainPc.start DrainPc.start))
              (DrainStep.left (CoStep.startEnter _ rfl)))
            (DrainStep.right (CoStep.startEnter _ rfl)))
          (DrainStep.left
            (CoStep.guardQuit ⟨true, false, true, 0, 0, 0⟩ rfl rfl rfl)))
        (DrainStep.right
          (CoStep.guardSkip ⟨true, true, true, 1, 0, 0⟩ rfl rfl)))
      (DrainStep.left (CoStep.finishQuit ⟨true, true, true, 1, 0, 0⟩)))

/-- Counterexample to C5: on the spec's own example — template steps
`[A(active), B(inactive), C(active, digest)]` with a digest filter
returning `[C\x27]` — the builder produces the job list `[C\x27]`, not
`[A, C\x27]`: when a digest step is present the step list becomes the
digest filter's output alone. -/
theorem createNotificationJobs_example_counterexample :
    createNotificationJobs exampleDigestFilter [stepA, stepB, stepC] =
      .ok [⟨stepCp, JobStatusEnum.pending, StepTypeEnum.digest,
            some DigestTypeEnum.regular⟩] ∧
    createNotificationJobs exampleDigestFilter [stepA, stepB, stepC] ≠
      .ok [⟨stepA, JobStatusEnum.pending, StepTypeEnum.inApp, none⟩,
           ⟨stepCp, JobStatusEnum.pending, StepTypeEnum.digest,
            some DigestTypeEnum.regular⟩] := by
  constructor <;> decide

/-- C5 (amended): the builder filters template steps to `active == true`
preserving order; when a digest step with a metadata type is present among
the active steps, the resulting step list is exactly the digest filter's
output — invoked on the template's full step list — so on the example the
job list is `[C\x27]` alone; without such a digest step the active steps
are kept. -/
theorem createNotificationJobs_amended :
    (∀ steps : List NotificationStep,
      (filterActiveSteps steps).Sublist steps ∧
      (∀ s ∈ filterActiveSteps steps, s.active = true) ∧
      (∀ s ∈ steps, s.active = true → s ∈ filterActiveSteps steps)) ∧
    (∀ (digestFilter :
        DigestTypeEnum → List NotificationStep → List NotificationStep)
       (steps : List NotificationStep) (d : NotificationStep)
       (t : DigestTypeEnum),
      (filterActiveSteps steps).find? isDigestStep = some d →
      d.metadataType = some t →
      createSteps digestFilter steps = digestFilter t steps) ∧
    (∀ (digestFilter :
        DigestTypeEnum → List NotificationStep → List NotificationStep)
       (steps : List NotificationStep),
      (filterActiveSteps steps).find? isDigestStep = none →
      createSteps digestFilter steps = filterActiveSteps steps) ∧
    createNotificationJobs exampleDigestFilter [stepA, stepB, stepC] =
      .ok [⟨stepCp, JobStatusEnum.pending, StepTypeEnum.digest,
            some DigestTypeEnum.regular⟩] := by
  refine ⟨?_, ?_, ?_, by decide⟩
  · intro steps
    refine ⟨List.filter_sublist steps, ?_, ?_⟩
    · intro s hs
      have := List.of_mem_filter hs
      simpa using this
    · intro s hs hact
      refine List.mem_filter.mpr ⟨hs, by simpa using hact⟩
  · intro digestFilter steps d t hfind hmeta
    simp [createSteps, filterDigestSteps, hfind, hmeta]
  · intro digestFilter steps hfind
    simp [createSteps, filterDigestSteps, hfind]

/-- Witness for C5 (amended): on the example template, the digest branch
fires with digest step `C` and the step list equals the filter's output. -/
theorem createNotificationJobs_amended_witness :
    createSteps exampleDigestFilter [stepA, stepB, stepC] =
      exampleDigestFilter DigestTypeEnum.regular [stepA, stepB, stepC] :=
  createNotificationJobs_amended.2.1 exampleDigestFilter
    [stepA, stepB, stepC] stepC DigestTypeEnum.regular (by decide)
    (by decide)

lemma delByPatternEvents_settled (events : List ScanEvent) :
    ∀ (st : DelByPatternRun) (idx : Nat),
      (delByPatternEvents st idx events).settled =
        (match st.settled with
         | some s => some s
         | none => firstSettlerFrom idx events) := by
  induction events with
  | nil =>
    intro st idx
    cases hs : st.settled <;> simp [delByPatternEvents, firstSettlerFrom, hs]
  | cons e rest ih =>
    intro st idx
    rw [show delByPatternEvents st idx (e :: rest) =
          delByPatternEvents (delByPatternStep st idx e) (idx + 1) rest
        from rfl, ih]
    cases e with
    | page keys =>
      by_cases hk : keys.length = 0
      · simp [delByPatternStep, firstSettlerFrom, isSettler, hk]
      · cases hs : st.settled <;>
          simp [delByPatternStep, firstSettlerFrom, isSettler, settleOf, hk,
            hs]
    | endOfStream =>
      cases hs : st.settled <;>
        simp [delByPatternStep, firstSettlerFrom, isSettler, settleOf, hs]
    | errorEvent msg =>
      cases hs : st.settled <;>
        simp [delByPatternStep, firstSettlerFrom, isSettler, settleOf, hs]

lemma delByPatternEvents_deleted (events : List ScanEvent) :
    ∀ (st : DelByPatternRun) (idx : Nat),
      (delByPatternEvents st idx events).deleted =
        st.deleted ++ allPageKeys events := by
  induction events with
  | nil => intro st idx; simp [delByPatternEvents, allPageKeys]
  | cons e rest ih =>
    intro st idx
    rw [show delByPatternEvents st idx (e :: rest) =
          delByPatternEvents (delByPatternStep st idx e) (idx + 1) rest
        from rfl, ih]
    cases e with
    | page keys =>
      by_cases hk : keys.length = 0
      · have hke : keys = [] := List.length_eq_zero.mp hk
        simp [delByPatternStep, allPageKeys, hke]
      · cases hs : st.settled <;>
          simp [delByPatternStep, allPageKeys, hk, hs]
    | endOfStream =>
      cases hs : st.settled <;> simp [delByPatternStep, allPageKeys, hs]
    | errorEvent msg =>
      cases hs : st.settled <;> simp [delByPatternStep, allPageKeys, hs]

/-- Counterexample to C6: on a scan of two non-empty pages, `delByPattern`
settles (resolves) at the first page's delete batch — event index 0,
before the stream has ended — with only the first page deleted at that
moment, not every key of every page. -/
theorem delByPattern_early_resolve_counterexample :
    (cacheDelByPattern (some ⟨"ready"⟩) emptyRedis "feed*"
        scanTwoPages).settled = some (0, ScanSettle.resolvedPipeline) ∧
    (cacheDelByPattern (some ⟨"ready"⟩) emptyRedis "feed*"
        scanTwoPages).deletedAtSettle = ["k1"] ∧
    allPageKeys scanTwoPages = ["k1", "k2"] ∧
    (cacheDelByPattern (some ⟨"ready"⟩) emptyRedis "feed*"
        scanTwoPages).deletedAtSettle ≠ allPageKeys scanTwoPages := by
  refine ⟨?_, ?_, ?_, ?_⟩ <;> decide

/-- C6 (amended): `delByPattern` deletes the keys of each page in a
pipelined batch as the page arrives — over the stream's lifetime every
key of every page is deleted — and the promise settles at the first of: a
non-empty page's delete batch completing (resolved), the stream ending
(resolved with `undefined`), or a stream error (rejected); with several
non-empty pages it therefore resolves before the scan stream has ended. -/
theorem delByPattern_amended (cl : RedisClient) (b : RedisBackend)
    (pattern : String) (events : List ScanEvent) :
    (cacheDelByPattern (some cl) b pattern events).deleted =
      allPageKeys events ∧
    (cacheDelByPattern (some cl) b pattern events).settled =
      firstSettlerFrom 0 events := by
  constructor
  · rw [show cacheDelByPattern (some cl) b pattern events =
          delByPatternEvents ⟨b, [], none, [], [.scanCmd pattern]⟩ 0 events
        from rfl, delByPatternEvents_deleted]
    rfl
  · rw [show cacheDelByPattern (some cl) b pattern events =
          delByPatternEvents ⟨b, [], none, [], [.scanCmd pattern]⟩ 0 events
        from rfl, delByPatternEvents_settled]

/-- Counterexample to C7: for base TTL `T = 10` and draw `r = 0`, the
jitter function returns `Math.floor(9.5) = 9`, which neither equals the
un-floored formula `ttl - ttl*0.05 + r*ttl*0.1 = 9.5` nor lies within
`[0.95*T, 1.05*T] = [9.5, 10.5]`. -/
theorem ttlVariant_floor_counterexample :
    ttlVariant 10 0 = 9 ∧
    ((ttlVariant 10 0 : ℚ) ≠ 10 - 10 * (5 / 100) + 0 * 10 * (1 / 10)) ∧
    ¬ ((95 / 100) * 10 ≤ (ttlVariant 10 0 : ℚ)) := by
  have h : ttlVariant 10 0 = 9 := by
    rw [ttlVariant, TTL_VARIANT_PERCENTAGE]
    norm_num
  refine ⟨h, by rw [h]; norm_num, by rw [h]; norm_num⟩

/-- C7 (amended): for base TTL `T > 0` and draw `r ∈ [0, 1)`, the
effective TTL equals the floor of `ttl - ttl*0.05 + r*ttl*0.1` and lies in
the half-open interval `(0.95*T - 1, 1.05*T)`. -/
theorem ttlVariant_amended (T r : ℚ) (hT : 0 < T) (hr0 : 0 ≤ r)
    (hr1 : r < 1) :
    ttlVariant T r = ⌊T - T * (5 / 100) + r * T * (1 / 10)⌋ ∧
    (95 / 100) * T - 1 < (ttlVariant T r : ℚ) ∧
    (ttlVariant T r : ℚ) < (105 / 100) * T := by
  have harg : T - (TTL_VARIANT_PERCENTAGE * T) / 2 +
      TTL_VARIANT_PERCENTAGE * T * r =
      T - T * (5 / 100) + r * T * (1 / 10) := by
    rw [TTL_VARIANT_PERCENTAGE]; ring
  have hcast : (ttlVariant T r : ℚ) =
      ((⌊T - T * (5 / 100) + r * T * (1 / 10)⌋ : Int) : ℚ) := by
    rw [ttlVariant, harg]
  refine ⟨by rw [ttlVariant, harg], ?_, ?_⟩
  · have hlow : (95 / 100) * T ≤ T - T * (5 / 100) + r * T * (1 / 10) := by
      nlinarith
    have hfl := Int.sub_one_lt_floor (T - T * (5 / 100) + r * T * (1 / 10))
    rw [hcast]
    linarith
  · have hup : T - T * (5 / 100) + r * T * (1 / 10) < (105 / 100) * T := by
      nlinarith
    have hfl := Int.floor_le (T - T * (5 / 100) + r * T * (1 / 10))
    rw [hcast]
    linarith

/-- Witness for C7 (amended): at `T = 10`, `r = 0` the jittered TTL is the
floor of `9.5` and lies strictly between `8.5` and `10.5`. -/
theorem ttlVariant_amended_witness :
    ttlVariant 10 0 = ⌊(10 : ℚ) - 10 * (5 / 100) + 0 * 10 * (1 / 10)⌋ ∧
    (95 / 100) * 10 - 1 < (ttlVariant 10 0 : ℚ) ∧
    (ttlVariant 10 0 : ℚ) < (105 / 100) * 10 :=
  ttlVariant_amended 10 0 (by norm_num) (by norm_num) (by norm_num)

lemma redisDel_kv (ks : List String) :
    ∀ (b : RedisBackend) (x : String),
      (redisDel b ks).kv x = if x ∈ ks then none else b.kv x := by
  induction ks with
  | nil => intro b x; simp [redisDel]
  | cons k rest ih =>
    intro b x
    rw [show redisDel b (k :: rest) = redisDel (redisDelOne b k) rest
        from rfl, ih]
    by_cases hx : x ∈ rest
    · simp [hx]
    · by_cases hk : x = k <;> simp [redisDelOne, hx, hk]

lemma redisDel_sets (ks : List String) :
    ∀ (b : RedisBackend) (x : String),
      (redisDel b ks).sets x = if x ∈ ks then none else b.sets x := by
  induction ks with
  | nil => intro b x; simp [redisDel]
  | cons k rest ih =>
    intro b x
    rw [show redisDel b (k :: rest) = redisDel (redisDelOne b k) rest
        from rfl, ih]
    by_cases hx : x ∈ rest
    · simp [hx]
    · by_cases hk : x = k <;> simp [redisDelOne, hx, hk]

lemma redisSet_sets (b : RedisBackend) (k v : String) (t : ℚ) :
    (redisSet b k v t).sets = b.sets := rfl

lemma redisExpire_sets (b : RedisBackend) (k : String) (t : ℚ) :
    (redisExpire b k t).sets = b.sets := by
  rw [redisExpire]; split <;> rfl

/-- C8: for a well-formed query key — one credentials scope, the
delimiter, one query discriminator — `setQuery(key, value)` followed by
`delQuery` on the key's credentials scope leaves zero matching keys: the
member entry and the scope set are both deleted; and `delQuery` on a
scope whose set has no members reads the members and then leaves the
store untouched, without error. -/
theorem setQuery_then_delQuery_clears (cl : RedisClient) (cacheTtl : ℚ)
    (b : RedisBackend) (key credentials query value : String)
    (optTtl : Option ℚ) (r : ℚ)
    (hsplit : splitKey key = ⟨credentials, query⟩)
    (hrecon : credentials ++ keyDelimiter ++ query = key) :
    ((cacheDelQuery (some cl)
        (cacheSetQuery (some cl) cacheTtl b key value optTtl r).1
        credentials).1.kv key = none ∧
     (cacheDelQuery (some cl)
        (cacheSetQuery (some cl) cacheTtl b key value optTtl r).1
        credentials).1.sets credentials = none) ∧
    (∀ (b' : RedisBackend) (k : String), redisSmembers b' k = [] →
      cacheDelQuery (some cl) b' k = (b', [RedisCmd.smembersCmd k])) := by
  refine ⟨?_, ?_⟩
  case refine_2 =>
    intro b' k hm
    simp [cacheDelQuery, hm]
  have hb1sets :
      (cacheSetQuery (some cl) cacheTtl b key value optTtl r).1.sets
          credentials =
        (redisSadd b credentials query).sets credentials := by
    simp [cacheSetQuery, hsplit, redisSet_sets, redisExpire_sets]
  have hqmem : query ∈ redisSmembers
      (cacheSetQuery (some cl) cacheTtl b key value optTtl r).1
      credentials := by
    rw [redisSmembers, hb1sets]
    by_cases hc : query ∈ (b.sets credentials).getD []
    · simp [redisSadd, hc]
    · simp [redisSadd, hc]
  have hlen : ¬ ((redisSmembers
      (cacheSetQuery (some cl) cacheTtl b key value optTtl r).1
      credentials).length = 0) := by
    intro h0
    rw [List.length_eq_zero] at h0
    rw [h0] at hqmem
    simp at hqmem
  have hdel : (cacheDelQuery (some cl)
      (cacheSetQuery (some cl) cacheTtl b key value optTtl r).1
      credentials).1 =
        redisDel (cacheSetQuery (some cl) cacheTtl b key value optTtl r).1
          (((redisSmembers
              (cacheSetQuery (some cl) cacheTtl b key value optTtl r).1
              credentials).map
            (fun query => credentials ++ ":" ++ QUERY_PREFIX ++ "=" ++
              query)) ++ [credentials]) := by
    simp [cacheDelQuery, hlen]
  have hkeyeq : credentials ++ ":" ++ QUERY_PREFIX ++ "=" ++ query = key := by
    rw [← hrecon, keyDelimiter]
    simp [String.append_assoc]
  have hkeymem : key ∈ (redisSmembers
      (cacheSetQuery (some cl) cacheTtl b key value optTtl r).1
      credentials).map
        (fun query => credentials ++ ":" ++ QUERY_PREFIX ++ "=" ++ query) := by
    have h1 := List.mem_map_of_mem
      (fun q => credentials ++ ":" ++ QUERY_PREFIX ++ "=" ++ q) hqmem
    dsimp only at h1
    rw [hkeyeq] at h1
    exact h1
  refine ⟨?_, ?_⟩
  · rw [hdel, redisDel_kv,
      if_pos (List.mem_append.mpr (Or.inl hkeymem))]
  · rw [hdel, redisDel_sets,
      if_pos (List.mem_append.mpr (Or.inr (List.mem_singleton.mpr rfl)))]

/-- Witness for C8: a concrete key `"integration:env1:#query#=q1"` with
scope `"integration:env1"` and discriminator `"q1"`: after the
setQuery/delQuery round trip neither the member entry nor the scope set
remains, and `delQuery` on an absent scope is a read-only no-op. -/
theorem setQuery_then_delQuery_clears_witness :
    ((cacheDelQuery (some ⟨"ready"⟩)
        (cacheSetQuery (some ⟨"ready"⟩) 30 emptyRedis
          "integration:env1:#query#=q1" "v" none 0).1
        "integration:env1").1.kv "integration:env1:#query#=q1" = none ∧
     (cacheDelQuery (some ⟨"ready"⟩)
        (cacheSetQuery (some ⟨"ready"⟩) 30 emptyRedis
          "integration:env1:#query#=q1" "v" none 0).1
        "integration:env1").1.sets "integration:env1" = none) ∧
    (∀ (b' : RedisBackend) (k : String), redisSmembers b' k = [] →
      cacheDelQuery (some ⟨"ready"⟩) b' k =
        (b', [RedisCmd.smembersCmd k])) :=
  setQuery_then_delQuery_clears ⟨"ready"⟩ 30 emptyRedis
    "integration:env1:#query#=q1" "integration:env1" "q1" "v" none 0
    (by decide) (by decide)

/-- C9: whenever `cacheEnabled()` is false, every cache operation (`set`,
`get`, `del`, `setQuery`, `delQuery`, `delByPattern`) and every
invalidation operation (`invalidateByKey`, `invalidateQuery`) returns
immediately with an undefined/falsy result, performs no backend call, and
leaves the store untouched. -/
theorem cache_disabled_noop (client : Option RedisClient) (cacheTtl : ℚ)
    (b : RedisBackend) (key value pattern scopeKey : String)
    (optTtl : Option ℚ) (r : ℚ) (karg : KeyArg) (events : List ScanEvent)
    (hc : cacheEnabled client = false) :
    cacheSet client cacheTtl b key value optTtl r = (b, []) ∧
    cacheGet client b key = (none, []) ∧
    cacheDel client b karg = (b, []) ∧
    cacheSetQuery client cacheTtl b key value optTtl r = (b, []) ∧
    cacheDelQuery client b scopeKey = (b, []) ∧
    cacheDelByPattern client b pattern events = ⟨b, [], none, [], []⟩ ∧
    invalidateByKey client b key = (b, []) ∧
    invalidateQuery client b scopeKey = (b, []) := by
  have hnone : client = none := by
    cases client <;> simp_all [cacheEnabled, isClientReady]
  subst hnone
  refine ⟨rfl, rfl, ?_, rfl, rfl, rfl, ?_, ?_⟩
  · cases karg <;> rfl
  · simp [invalidateByKey, cacheEnabled, isClientReady, cacheDel]
  · simp [invalidateQuery, cacheEnabled, isClientReady, cacheDelQuery]

/-- Witness for C9: with no client configured, every operation on a
concrete store and key is a no-op returning no result and issuing no
command. -/
theorem cache_disabled_noop_witness :
    cacheSet none 30 emptyRedis "k" "v" none 0 = (emptyRedis, []) ∧
    cacheGet none emptyRedis "k" = (none, []) ∧
    cacheDel none emptyRedis (KeyArg.single "k") = (emptyRedis, []) ∧
    cacheSetQuery none 30 emptyRedis "k" "v" none 0 = (emptyRedis, []) ∧
    cacheDelQuery none emptyRedis "scope" = (emptyRedis, []) ∧
    cacheDelByPattern none emptyRedis "p" [] =
      ⟨emptyRedis, [], none, [], []⟩ ∧
    invalidateByKey none emptyRedis "k" = (emptyRedis, []) ∧
    invalidateQuery none emptyRedis "scope" = (emptyRedis, []) :=
  cache_disabled_noop none 30 emptyRedis "k" "v" "p" "scope" none 0
    (KeyArg.single "k") [] rfl

end Novu
